import Mathlib

/-!
Verification of the value-marshalling core generated by `run_all.py`.

The repository's `run_all.py` emits a C# Excel-DNA add-in whose helper
functions (`SerializeParamValue`, `SerializeArrayValue`, `SerializeScalarValue`,
`SerializeNumberValue`, `FormatNumber`, `FormatDateParam`, `FormatDateFromNumber`,
`EscapeJsonString`, `IsEmptyCell`, `TryExtractResultValue`, `ParseResult`,
`Parse2DArray`, `Parse1DArray`, `ParseSingleValue`) live verbatim inside the
Python template strings.  This file gives a shallow embedding of those
functions, together with the Python-side type classification helpers
(`infer_parameter_type`, `_map_mlflow_type` and the kind table used by
`generate_udf_method`), and proves the specification claims about them.

Modelling conventions:
* spreadsheet doubles are modelled as rationals (all values exercised by the
  claims are exactly representable);
* `.NET` library routines (`double.TryParse`, `DateTime.TryParse`,
  `Convert.ToString`, `DateTime.FromOADate`, `DateTimeOffset.FromUnixTime*`)
  are modelled on the fragment of their domain the generated code relies on
  (plain invariant-culture decimal literals and ISO `yyyy-MM-dd` dates), as
  noted at each definition.
-/

namespace EndpointUDFs

/-- Whitespace test modelling `char.IsWhiteSpace` / python `str.strip` on the
ASCII range (space and the control characters 0x09–0x0D). -/
def isWS (c : Char) : Bool :=
  c = ' ' || (9 ≤ c.toNat && c.toNat ≤ 13)

/-- Leading-whitespace trim on character lists. -/
def csTrimLeft (cs : List Char) : List Char :=
  cs.dropWhile isWS

/-- Trailing-whitespace trim on character lists. -/
def csTrimRight (cs : List Char) : List Char :=
  (cs.reverse.dropWhile isWS).reverse

/-- Models `string.Trim()` (both ends). -/
def csTrim (cs : List Char) : List Char :=
  csTrimRight (csTrimLeft cs)

/-- `string.Trim()` at `String` level. -/
def strTrim (s : String) : String :=
  ⟨csTrim s.data⟩

/-- Models `string.IsNullOrWhiteSpace`. -/
def isNullOrWhiteSpace (cs : List Char) : Bool :=
  cs.all isWS

/-- ASCII lower-casing, modelling python `str.lower` / invariant lowering on
the identifiers appearing in type names. -/
def asciiLower (s : String) : String :=
  ⟨s.data.map (fun c => if 'A' ≤ c && c ≤ 'Z' then Char.ofNat (c.toNat + 32) else c)⟩

/-- The four parameter kinds of the generated `ParamKind` enum. -/
inductive ParamKind where
  | String
  | Number
  | Bool
  | Date
deriving DecidableEq, Repr

/-- A single spreadsheet cell value as received by the generated UDF:
`ExcelEmpty`, `ExcelMissing` (also modelling C# `null`), an `ExcelError`
sentinel (carrying the enum constant's name), a double, a string, or a
boolean. -/
inductive XV where
  | empty
  | missing
  | error (name : String)
  | num (q : ℚ)
  | str (s : String)
  | bool (b : Bool)
deriving DecidableEq, Repr

/-- A UDF argument value: a scalar cell, a rank-1 `object[]`, or a rank-2
`object[,]` (stored row-major; rank-2 arrays from Excel are rectangular). -/
inductive ParamValue where
  | scalar (v : XV)
  | arr1 (xs : List XV)
  | arr2 (g : List (List XV))
deriving DecidableEq, Repr

/-- Digit accumulation for `natToString`; fuel-driven, fuel `n+1` suffices. -/
def natDigitsAux : Nat → Nat → List Char → List Char
  | 0, _, acc => acc
  | fuel + 1, n, acc =>
    let d := Char.ofNat (48 + n % 10)
    if n < 10 then d :: acc else natDigitsAux fuel (n / 10) (d :: acc)

/-- Decimal rendering of a natural number. -/
def natToString (n : Nat) : String :=
  ⟨natDigitsAux (n + 1) n []⟩

/-- Decimal rendering of an integer. -/
def intToString (n : ℤ) : String :=
  if n < 0 then "-" ++ natToString n.natAbs else natToString n.natAbs

/-- Rational addition in kernel-computable form (extensionally `a + b`; the
library field operations are `@[irreducible]` and do not evaluate inside
`decide`). -/
def qAdd (a b : ℚ) : ℚ :=
  mkRat (a.num * (b.den : ℤ) + b.num * (a.den : ℤ)) (a.den * b.den)

/-- Rational subtraction in kernel-computable form (extensionally `a - b`). -/
def qSub (a b : ℚ) : ℚ :=
  mkRat (a.num * (b.den : ℤ) - b.num * (a.den : ℤ)) (a.den * b.den)

/-- Rational multiplication in kernel-computable form (extensionally `a * b`). -/
def qMul (a b : ℚ) : ℚ :=
  mkRat (a.num * b.num) (a.den * b.den)

/-- Truncation toward zero, matching C# casts and the `%` remainder sign. -/
def truncQ (q : ℚ) : ℤ :=
  q.num.tdiv (q.den : ℤ)

/-- Fractional digits of `0 ≤ q < 1`, most significant first; stops at zero or
when the fuel (17 digits, the double round-trip budget) runs out. -/
def fracDigits : Nat → ℚ → List Char
  | 0, _ => []
  | fuel + 1, q =>
    if q = 0 then []
    else
      let q10 := qMul q (mkRat 10 1)
      let d := (truncQ q10).toNat
      Char.ofNat (48 + d % 10) :: fracDigits fuel (qSub q10 (mkRat (d : ℤ) 1))

/-- Invariant-culture rendering of a nonnegative rational. -/
def nonnegNumToString (q : ℚ) : String :=
  let ip := (truncQ q).toNat
  let fr := qSub q (mkRat (ip : ℤ) 1)
  if fr = 0 then natToString ip
  else natToString ip ++ "." ++ ⟨fracDigits 17 fr⟩

/-- Models `double.ToString(CultureInfo.InvariantCulture)` on the terminating
decimals this development evaluates (exact for integral values). -/
def numToString (q : ℚ) : String :=
  if q < 0 then "-" ++ nonnegNumToString (-q) else nonnegNumToString q

/-- Numeric value of a digit list (most significant first). -/
def digitsToNat (ds : List Char) : Nat :=
  ds.foldl (fun acc c => acc * 10 + (c.toNat - 48)) 0

/-- Models `double.TryParse(s, NumberStyles.Any, CultureInfo.InvariantCulture, _)`
on plain decimal literals: optional surrounding whitespace, optional sign,
digits with an optional decimal point, optional exponent.  (Thousands
separators and currency symbols, which `NumberStyles.Any` would also admit,
are outside the inputs this development evaluates.) -/
def parseInvariantDouble (cs : List Char) : Option ℚ :=
  let cs := csTrim cs
  let (neg, cs) :=
    match cs with
    | '-' :: rest => (true, rest)
    | '+' :: rest => (false, rest)
    | rest => (false, rest)
  let ip := cs.takeWhile Char.isDigit
  let cs := cs.drop ip.length
  let (fp, cs) :=
    match cs with
    | '.' :: rest =>
      let fp := rest.takeWhile Char.isDigit
      (fp, rest.drop fp.length)
    | rest => ([], rest)
  if ip = [] ∧ fp = [] then none
  else
    let scale := 10 ^ fp.length
    let mant : ℚ := mkRat (((digitsToNat ip * scale + digitsToNat fp : Nat)) : ℤ) scale
    let mant := if neg then Rat.neg mant else mant
    match cs with
    | [] => some mant
    | 'e' :: rest => parseExponent mant rest
    | 'E' :: rest => parseExponent mant rest
    | _ => none
where
  /-- Exponent suffix of a decimal literal. -/
  parseExponent (mant : ℚ) (cs : List Char) : Option ℚ :=
    let (esgn, cs) :=
      match cs with
      | '-' :: rest => (true, rest)
      | '+' :: rest => (false, rest)
      | rest => (false, rest)
    let ds := cs.takeWhile Char.isDigit
    if ds = [] ∨ cs.drop ds.length ≠ [] then none
    else
      let e := digitsToNat ds
      some (if esgn then qMul mant (mkRat 1 (10 ^ e)) else qMul mant (mkRat ((10 : ℤ) ^ e) 1))

/-- String-level wrapper for `parseInvariantDouble`. -/
def tryParseDouble (s : String) : Option ℚ :=
  parseInvariantDouble s.data

/-- Gregorian leap-year test. -/
def isLeapYear (y : ℤ) : Bool :=
  (y % 4 = 0 && y % 100 ≠ 0) || y % 400 = 0

/-- Days in a month of the proleptic Gregorian calendar. -/
def daysInMonth (y : ℤ) (m : Nat) : Nat :=
  if m = 2 then (if isLeapYear y then 29 else 28)
  else if m = 4 ∨ m = 6 ∨ m = 9 ∨ m = 11 then 30
  else 31

/-- Civil date from a count of days since 1970-01-01 (standard
`civil_from_days` algorithm), returning `(year, month, day)`. -/
def civilFromDays (z : ℤ) : ℤ × Nat × Nat :=
  let z := z + 719468
  let era := z.fdiv 146097
  let doe := (z - era * 146097).toNat
  let yoe := (doe - doe / 1460 + doe / 36524 - doe / 146096) / 365
  let y := (yoe : ℤ) + era * 400
  let doy := doe - (365 * yoe + yoe / 4 - yoe / 100)
  let mp := (5 * doy + 2) / 153
  let d := doy - (153 * mp + 2) / 5 + 1
  let m := if mp < 10 then mp + 3 else mp - 9
  (if m ≤ 2 then y + 1 else y, m, d)

/-- Zero-padded fixed-width decimal rendering. -/
def padNat (width n : Nat) : String :=
  let s := natToString n
  ⟨List.replicate (width - s.data.length) '0'⟩ ++ s

/-- `"yyyy-MM-dd"` rendering of a civil date (years of the generated code are
always in `[1, 9999]`). -/
def formatCivil : ℤ × Nat × Nat → String
  | (y, m, d) => padNat 4 y.toNat ++ "-" ++ padNat 2 m ++ "-" ++ padNat 2 d

/-- Banker's rounding of a rational, modelling `Math.Round(double)`. -/
def roundHalfEven (q : ℚ) : ℤ :=
  let f := q.floor
  let r := qSub q (mkRat f 1)
  if r < mkRat 1 2 then f
  else if mkRat 1 2 < r then f + 1
  else if f % 2 = 0 then f else f + 1

/-- Models `DateTime.FromOADate` down to its civil date: days since the
1899-12-30 epoch with the OLE-automation sign-magnitude adjustment for
negative fractional serials.  Returns `none` exactly where `FromOADate`
throws (outside `(-657435, 2958466)`). -/
def fromOADateCivil (v : ℚ) : Option (ℤ × Nat × Nat) :=
  if 2958466 ≤ v ∨ v ≤ -657435 then none
  else
    let half := if 0 ≤ v then mkRat 1 2 else Rat.neg (mkRat 1 2)
    let msRaw := truncQ (qAdd (qMul v (mkRat 86400000 1)) half)
    let ms := if msRaw < 0 then msRaw - msRaw.tmod 86400000 * 2 else msRaw
    some (civilFromDays (ms.fdiv 86400000 - 25569))

/-- Models the invariant-culture ISO subset of `DateTime.TryParse`: a
`yyyy-MM-dd` (or `yyyy/MM/dd`) date with in-range month and day and nothing
following.  Other formats `TryParse` would also accept are outside the inputs
this development evaluates. -/
def tryParseDate (cs : List Char) : Option (ℤ × Nat × Nat) :=
  match cs with
  | [y1, y2, y3, y4, s1, m1, m2, s2, d1, d2] =>
    if [y1, y2, y3, y4, m1, m2, d1, d2].all Char.isDigit &&
        (s1 = '-' || s1 = '/') && (s2 = '-' || s2 = '/') then
      let y : ℤ := (digitsToNat [y1, y2, y3, y4] : ℤ)
      let m := digitsToNat [m1, m2]
      let d := digitsToNat [d1, d2]
      if 1 ≤ m && m ≤ 12 && 1 ≤ d && d ≤ daysInMonth y m && 1 ≤ y then
        some (y, m, d)
      else none
    else none
  | _ => none

/-- Embeds `FormatDateFromNumber`: epoch milliseconds above `10^12`, epoch
seconds above `10^9`, otherwise an OADate spreadsheet serial, falling back to
plain numeric rendering where `FromOADate` throws.  (For epoch values beyond
the `DateTime` range the source would propagate an exception; those inputs
are outside this development's claims.) -/
def FormatDateFromNumber (v : ℚ) : String :=
  if 1000000000000 ≤ v then
    formatCivil (civilFromDays ((roundHalfEven v).fdiv 86400000))
  else if 1000000000 ≤ v then
    formatCivil (civilFromDays ((roundHalfEven v).fdiv 86400))
  else
    match fromOADateCivil v with
    | some c => formatCivil c
    | none => numToString v

/-- Embeds `FormatDateParam`: null/empty → `""`; doubles via
`FormatDateFromNumber`; strings are trimmed, tried as a number, then as a
date, else echoed (trimmed); other runtime types via their `ToString`. -/
def FormatDateParam (v : XV) : String :=
  match v with
  | .empty => ""
  | .missing => ""
  | .num d => FormatDateFromNumber d
  | .str s =>
    let t := csTrim s.data
    if t = [] then ""
    else
      match parseInvariantDouble t with
      | some q => FormatDateFromNumber q
      | none =>
        match tryParseDate t with
        | some c => formatCivil c
        | none => ⟨t⟩
  | .bool b => if b then "True" else "False"
  | .error n => n

/-- Replace every occurrence of a character by a string, the building block of
`string.Replace`. -/
def replaceChar (cs : List Char) (target : Char) (repl : List Char) : List Char :=
  match cs with
  | [] => []
  | c :: rest =>
    if c = target then repl ++ replaceChar rest target repl
    else c :: replaceChar rest target repl

/-- Embeds `EscapeJsonString`: `\` → `\\` then `"` → `\"`. -/
def EscapeJsonString (s : String) : String :=
  ⟨replaceChar (replaceChar s.data '\\' ['\\', '\\']) '"' ['\\', '"']⟩

/-- Models `Convert.ToString(value, CultureInfo.InvariantCulture)` on cell
values (the empty/missing cases are unreachable from the guarded call sites
in the source). -/
def ConvertToString (v : XV) : String :=
  match v with
  | .num q => numToString q
  | .str s => s
  | .bool b => if b then "True" else "False"
  | .error n => n
  | .empty => ""
  | .missing => ""

/-- Models `bool.TryParse`: case-insensitive `"true"`/`"false"` after
trimming. -/
def boolTryParse (s : String) : Option Bool :=
  let t := asciiLower ⟨csTrim s.data⟩
  if t = "true" then some true
  else if t = "false" then some false
  else none

/-- Embeds `FormatNumber`.  With `forceFloat` (never set by any call site of
the generated code) near-integers render with one forced decimal. -/
def FormatNumber (q : ℚ) (forceFloat : Bool) : String :=
  if !forceFloat then numToString q
  else
    let fr := qSub q (mkRat (truncQ q) 1)
    let afr := if fr < 0 then Rat.neg fr else fr
    if afr < mkRat 1 1000000000000 then intToString (truncQ q) ++ ".0"
    else numToString q

/-- Embeds `SerializeNumberValue` on cell values.  `Convert.ToDouble` succeeds
on booleans (1/0) and throws on `ExcelError` and the empty sentinels, landing
in the quoted-string catch branch. -/
def SerializeNumberValue (v : XV) (forceFloat : Bool) : String :=
  match v with
  | .num q => FormatNumber q forceFloat
  | .str s =>
    match tryParseDouble s with
    | some q => FormatNumber q forceFloat
    | none => "\"" ++ EscapeJsonString s ++ "\""
  | .bool b => FormatNumber (if b then 1 else 0) forceFloat
  | .error n => "\"" ++ EscapeJsonString n ++ "\""
  | .empty => "\"" ++ EscapeJsonString "" ++ "\""
  | .missing => "\"" ++ EscapeJsonString "" ++ "\""

/-- Embeds `SerializeScalarValue` on a single cell: the empty sentinels give
`null`, then the four-kind switch.  Note that an `ExcelError` value is not
caught by the null test and is serialized as an ordinary value. -/
def SerializeScalarValue (v : XV) (kind : ParamKind) : String :=
  match v with
  | .empty => "null"
  | .missing => "null"
  | _ =>
    match kind with
    | .String => "\"" ++ EscapeJsonString (ConvertToString v) ++ "\""
    | .Date => "\"" ++ EscapeJsonString (FormatDateParam v) ++ "\""
    | .Bool =>
      match v with
      | .bool b => if b then "true" else "false"
      | .num d => if d ≠ 0 then "true" else "false"
      | .str s =>
        match boolTryParse s with
        | some b => if b then "true" else "false"
        | none =>
          match tryParseDouble s with
          | some q => if q ≠ 0 then "true" else "false"
          | none => "false"
      | _ => "false"
    | .Number => SerializeNumberValue v false

/-- Embeds `IsEmptyCell`: null, `ExcelMissing`, `ExcelEmpty` or `ExcelError`. -/
def IsEmptyCell (v : XV) : Bool :=
  match v with
  | .empty => true
  | .missing => true
  | .error _ => true
  | _ => false

/-- One array element as the generated loops serialize it: for `Number` kind
the value is first stringified invariantly and then serialized as a `String`;
every other kind serializes the value directly. -/
def elemSerialize (kind : ParamKind) (v : XV) : String :=
  if kind = .Number then SerializeScalarValue (.str (ConvertToString v)) .String
  else SerializeScalarValue v kind

/-- The element loop shared by the three branches of `SerializeArrayValue`:
appends the non-empty cells to the accumulated text, comma-separated, with
the `appended` flag tracking whether a separator is due. -/
def appendElems (kind : ParamKind) (vals : List XV) (sb : String) (appended : Bool) : String :=
  match vals with
  | [] => sb
  | v :: rest =>
    if IsEmptyCell v then appendElems kind rest sb appended
    else
      let sb := if appended then sb ++ "," else sb
      appendElems kind rest (sb ++ elemSerialize kind v) true

/-- The row loop of the rank-2 branch of `SerializeArrayValue`: each row is a
bracketed element list, rows comma-separated. -/
def appendRows (kind : ParamKind) (rows : List (List XV)) (sb : String) (isFirst : Bool) : String :=
  match rows with
  | [] => sb
  | row :: rest =>
    let sb := if isFirst then sb else sb ++ ","
    appendRows kind rest (appendElems kind row (sb ++ "[") false ++ "]") false

/-- Models the C# scalar fallback `Convert.ToString` on an array object (the
runtime type name), reached when `SerializeScalarValue` is handed an array. -/
def arrayTypeName (v : ParamValue) : String :=
  match v with
  | .arr1 _ => "System.Object[]"
  | .arr2 _ => "System.Object[,]"
  | .scalar _ => ""

/-- Embeds `SerializeArrayValue`: rank-1 arrays and single-row/column rank-2
arrays serialize as one bracketed list; other rank-2 arrays serialize as a
bracketed list of bracketed rows. -/
def SerializeArrayValue (v : ParamValue) (kind : ParamKind) : String :=
  match v with
  | .arr1 xs => appendElems kind xs "[" false ++ "]"
  | .arr2 g =>
    let rows := g.length
    let cols := (g.headD []).length
    if rows = 1 ∨ cols = 1 then
      let vals := if rows = 1 then g.headD [] else g.map (fun r => r.headD .empty)
      appendElems kind vals "[" false ++ "]"
    else
      appendRows kind g "[" true ++ "]"
  | .scalar s => SerializeScalarValue s kind

/-- `SerializeScalarValue` lifted to the `object` argument as in the source:
array objects fall through the type switches to the `.NET` defaults
(unreachable from the generated call patterns on well-formed inputs). -/
def SerializeScalarValueObj (v : ParamValue) (kind : ParamKind) : String :=
  match v with
  | .scalar s => SerializeScalarValue s kind
  | _ =>
    match kind with
    | .String => "\"" ++ EscapeJsonString (arrayTypeName v) ++ "\""
    | .Date => "\"" ++ EscapeJsonString (arrayTypeName v) ++ "\""
    | .Bool => "false"
    | .Number => "\"" ++ EscapeJsonString (arrayTypeName v) ++ "\""

/-- Embeds `SerializeParamValue` (cell references already resolved by
`NormalizeExcelValue`): null/missing/empty give `null`; arrays go through
`SerializeArrayValue` when the parameter is an array parameter; a 1×1 rank-2
array unwraps to its single cell otherwise; everything else is a scalar. -/
def SerializeParamValue (v : ParamValue) (kind : ParamKind) (allowArray : Bool) : String :=
  match v with
  | .scalar .empty => "null"
  | .scalar .missing => "null"
  | .scalar s => SerializeScalarValue s kind
  | .arr1 xs =>
    if allowArray then SerializeArrayValue (.arr1 xs) kind
    else SerializeScalarValueObj (.arr1 xs) kind
  | .arr2 g =>
    if allowArray then SerializeArrayValue (.arr2 g) kind
    else
      match g with
      | [[x]] => SerializeScalarValue x kind
      | _ => SerializeScalarValueObj (.arr2 g) kind

/-- The character list of the literal regex key pattern `"result"`. -/
def resultKeyChars : List Char :=
  ['"', 'r', 'e', 's', 'u', 'l', 't', '"']

/-- Length of a match of the anchor regex `"result"\s*:` at the head of the
list, if any: the literal key, greedy whitespace, then a colon. -/
def matchKeyAt (cs : List Char) : Option Nat :=
  if resultKeyChars.isPrefixOf cs then
    let rest := cs.drop 8
    let w := (rest.takeWhile isWS).length
    match rest.drop w with
    | ':' :: _ => some (8 + w + 1)
    | _ => none
  else none

/-- First match of the anchor regex over the whole input, as the pair
(start index, match length), modelling `Regex.Match` left-to-right search. -/
def findKey : List Char → Option (Nat × Nat)
  | [] => none
  | c :: cs =>
    match matchKeyAt (c :: cs) with
    | some len => some (0, len)
    | none =>
      match findKey cs with
      | some (i, len) => some (i + 1, len)
      | none => none

/-- The bracket scan of `TryExtractResultValue`: starting at the opening
bracket, track the nesting depth of exactly the `opc`/`clc` pair, treating
characters inside a double-quoted string (with backslash escapes) as inert;
return the number of characters consumed up to and including the bracket
that brings the depth back to zero, or `none` if the input ends first. -/
def scanBracket (opc clc : Char) : List Char → ℤ → Bool → Bool → Option Nat
  | [], _, _, _ => none
  | ch :: rest, depth, inString, escape =>
    if inString then
      if escape then (scanBracket opc clc rest depth true false).map (· + 1)
      else if ch = '\\' then (scanBracket opc clc rest depth true true).map (· + 1)
      else if ch = '"' then (scanBracket opc clc rest depth false false).map (· + 1)
      else (scanBracket opc clc rest depth true false).map (· + 1)
    else if ch = '"' then (scanBracket opc clc rest depth true false).map (· + 1)
    else if ch = opc then (scanBracket opc clc rest (depth + 1) false false).map (· + 1)
    else if ch = clc then
      if depth - 1 = 0 then some 1
      else (scanBracket opc clc rest (depth - 1) false false).map (· + 1)
    else (scanBracket opc clc rest depth false false).map (· + 1)

/-- The quoted-string scan of `TryExtractResultValue`, applied to the
characters after the opening quote: consume up to and including the matching
unescaped closing quote. -/
def scanQuoted : List Char → Bool → Option Nat
  | [], _ => none
  | ch :: rest, escape =>
    if escape then (scanQuoted rest false).map (· + 1)
    else if ch = '\\' then (scanQuoted rest true).map (· + 1)
    else if ch = '"' then some 1
    else (scanQuoted rest false).map (· + 1)

/-- The `(found, resultValue, error)` triple of `TryExtractResultValue`. -/
structure ExtractOut where
  found : Bool
  resultValue : String
  error : String
deriving DecidableEq, Repr

/-- The value-scanning phase of `TryExtractResultValue`, applied to the
characters after the matched key and the skipped whitespace: a bracketed,
quoted or bare primitive value. -/
def extractValueFrom (rest : List Char) : ExtractOut :=
  match rest with
  | [] => ⟨false, "", "Error: Empty result field in response"⟩
  | c :: _ =>
    if c = '[' ∨ c = '\x7b' then
      let clc := if c = '[' then ']' else '\x7d'
      match scanBracket c clc rest 0 false false with
      | some n => ⟨true, ⟨csTrim (rest.take n)⟩, ""⟩
      | none => ⟨false, "", "Error: Unterminated result value in response"⟩
    else if c = '"' then
      match scanQuoted (rest.drop 1) false with
      | some n => ⟨true, ⟨csTrim (rest.take (n + 1))⟩, ""⟩
      | none => ⟨false, "", "Error: Unterminated string result in response"⟩
    else
      let prim := rest.takeWhile (fun ch => ¬(ch = ',' ∨ ch = '\x7d' ∨ ch = ']'))
      ⟨true, ⟨csTrim prim⟩, ""⟩

/-- Embeds `TryExtractResultValue`: anchor on the first `"result"\s*:` match,
skip whitespace, then extract a bracketed, quoted or bare primitive value. -/
def TryExtractResultValue (json : String) : ExtractOut :=
  match findKey json.data with
  | none => ⟨false, "", "Error: No result field in response"⟩
  | some (idx, len) =>
    extractValueFrom
      ((json.data.drop (idx + len)).drop ((json.data.drop (idx + len)).takeWhile isWS).length)

/-- A scalar produced by the response shaper: a parsed double or a string. -/
inductive CellScalar where
  | num (q : ℚ)
  | str (s : String)
deriving DecidableEq, Repr

/-- The Excel-facing value returned by `ParseResult` and the shapers: a
scalar (numbers, strings and error-message strings), a 1×N row spill, or an
R×C grid spill. -/
inductive SpillResult where
  | scalar (v : CellScalar)
  | row (vs : List CellScalar)
  | grid (g : List (List CellScalar))
deriving DecidableEq, Repr

/-- Strip all leading and trailing double quotes, modelling `Trim('"')`. -/
def trimQuotes (cs : List Char) : List Char :=
  ((cs.dropWhile (· = '"')).reverse.dropWhile (· = '"')).reverse

/-- Embeds `ParseSingleValue`: invariant floating parse, else strip
surrounding quotes and return the text. -/
def ParseSingleValue (s : String) : CellScalar :=
  let trimmed := csTrim s.data
  match parseInvariantDouble trimmed with
  | some q => .num q
  | none => .str ⟨trimQuotes trimmed⟩

/-- `Split(',', StringSplitOptions.RemoveEmptyEntries)`: comma fields with
zero-length fields removed. -/
def splitCommasNE (cs : List Char) : List (List Char) :=
  (cs.splitOn ',').filter (· ≠ [])

/-- One candidate of the row regex `\[([^\[\]]*)\]` positioned just after an
opening bracket: the bracket-free content and the remainder after the
closing bracket, or `none` when no closing bracket precedes the next
bracket character. -/
def rowCandidate (cs : List Char) : Option (List Char × List Char) :=
  let content := cs.takeWhile (fun c => ¬(c = '[' ∨ c = ']'))
  match cs.drop content.length with
  | ']' :: rem => some (content, rem)
  | _ => none

/-- All matches of the row regex `\[([^\[\]]*)\]`, left to right and
non-overlapping, modelling `Regex.Matches`; fuel-driven over suffixes, an
input-length fuel suffices. -/
def rowMatchesAux : Nat → List Char → List (List Char)
  | 0, _ => []
  | fuel + 1, cs =>
    match cs with
    | [] => []
    | c :: rest =>
      if c = '[' then
        match rowCandidate rest with
        | some (content, rem) => content :: rowMatchesAux fuel rem
        | none => rowMatchesAux fuel rest
      else rowMatchesAux fuel rest

/-- Row-content matches of a 2-D array fragment. -/
def rowMatches (cs : List Char) : List (List Char) :=
  rowMatchesAux cs.length cs

/-- One row of `Parse2DArray`: whitespace-only content gives an empty row,
otherwise the comma fields (empties removed) parsed as scalars. -/
def parseRowContent (content : List Char) : List CellScalar :=
  if isNullOrWhiteSpace content then []
  else (splitCommasNE content).map (fun p => ParseSingleValue ⟨csTrim p⟩)

/-- Maximum row width, as the running maximum of the source loop. -/
def maxWidth (rows : List (List CellScalar)) : Nat :=
  rows.foldl (fun acc r => max acc r.length) 0

/-- Right-pad a row to the grid width with empty strings. -/
def padRow (r : List CellScalar) (n : Nat) : List CellScalar :=
  r ++ List.replicate (n - r.length) (.str "")

/-- Embeds `Parse2DArray`: regex-extracted rows, empty-grid and 1×1
degenerate cases, then a rectangular grid padded with `""`. -/
def Parse2DArray (s : String) : SpillResult :=
  let ms := rowMatches s.data
  if ms = [] then .scalar (.str "Error: Invalid 2D array format")
  else
    let rows := ms.map parseRowContent
    let maxCols := maxWidth rows
    if rows.length = 0 ∨ maxCols = 0 then .scalar (.str "")
    else if rows.length = 1 ∧ (rows.headD []).length = 1 then
      .scalar ((rows.headD []).headD (.str ""))
    else .grid (rows.map (fun r => padRow r maxCols))

/-- Embeds `Parse1DArray`: the bracket interior, trimmed; empty gives `""`,
a single comma field collapses to its scalar, otherwise a 1×N row. -/
def Parse1DArray (s : String) : SpillResult :=
  let inner := csTrim (s.data.drop 1).dropLast
  if inner = [] then .scalar (.str "")
  else
    let results := (splitCommasNE inner).map (fun p => ParseSingleValue ⟨csTrim p⟩)
    if results.length = 1 then .scalar (results.headD (.str ""))
    else .row results

/-- Prefix test on strings via their character lists. -/
def strStartsWith (s t : String) : Bool :=
  t.data.isPrefixOf s.data

/-- Suffix test on strings via their character lists. -/
def strEndsWith (s t : String) : Bool :=
  t.data.isSuffixOf s.data

/-- The shape dispatch of `ParseResult` on an extracted fragment: `[[` means
a grid, `[`…`]` a single-level array, anything else a single scalar. -/
def ParseResultFragment (s : String) : SpillResult :=
  if strStartsWith s "[[" then Parse2DArray s
  else if strStartsWith s "[" && strEndsWith s "]" then Parse1DArray s
  else .scalar (ParseSingleValue s)

/-- Embeds `ParseResult`: extraction failures surface the error text as an
ordinary string value; successes are shaped by the fragment dispatch. -/
def ParseResult (json : String) : SpillResult :=
  let r := TryExtractResultValue json
  if r.found then ParseResultFragment r.resultValue
  else .scalar (.str r.error)

/-- A Python runtime value as seen by the schema-inference helpers. -/
inductive PyVal where
  | none
  | pybool (b : Bool)
  | pyint (n : ℤ)
  | pyfloat (q : ℚ)
  | pystr (s : String)
  | pylist (xs : List PyVal)

/-- Embeds `infer_parameter_type`: runtime-type sniffing of a sample value
(booleans before integers, as in the Python `isinstance` chain). -/
def infer_parameter_type (v : PyVal) : String :=
  match v with
  | .pybool _ => "bool"
  | .pyint _ => "double"
  | .pyfloat _ => "double"
  | .pystr _ => "string"
  | _ => "object"

/-- Embeds `_looks_like_date_string`: the stripped value is four digits, a
dash or slash, two digits, a dash or slash, two digits, then either the end
or a space or `T` followed by anything (the source regex). -/
def looks_like_date_string (value : String) : Bool :=
  if value = "" then false
  else
    match csTrim value.data with
    | y1 :: y2 :: y3 :: y4 :: s1 :: m1 :: m2 :: s2 :: d1 :: d2 :: rest =>
      [y1, y2, y3, y4, m1, m2, d1, d2].all Char.isDigit &&
        (s1 = '-' || s1 = '/') && (s2 = '-' || s2 = '/') &&
        (rest = [] || rest.headD ' ' = ' ' || rest.headD ' ' = 'T')
    | _ => false

/-- Alternative 1 of the token regex, `[A-Z]?[a-z]+`: an optional uppercase
letter followed by at least one lowercase letter. -/
def tokenAlt1 (cs : List Char) : Option (List Char × List Char) :=
  match cs with
  | [] => none
  | c :: rest =>
    if c.isUpper then
      let ls := rest.takeWhile Char.isLower
      if ls = [] then none else some (c :: ls, rest.drop ls.length)
    else
      let ls := cs.takeWhile Char.isLower
      if ls = [] then none else some (ls, cs.drop ls.length)

/-- Alternative 2 of the token regex, `[0-9]+`. -/
def tokenAlt2 (cs : List Char) : Option (List Char × List Char) :=
  let ds := cs.takeWhile Char.isDigit
  if ds = [] then none else some (ds, cs.drop ds.length)

/-- Alternative 3 of the token regex, `[A-Z]+(?![a-z])`, with the greedy
backtracking of the lookahead: the full uppercase run unless a lowercase
letter follows, in which case the run minus its last letter (if nonempty). -/
def tokenAlt3 (cs : List Char) : Option (List Char × List Char) :=
  let us := cs.takeWhile Char.isUpper
  if us = [] then none
  else if (cs.drop us.length).headD ' ' |>.isLower then
    if us.length = 1 then none
    else some (us.dropLast, cs.drop (us.length - 1))
  else some (us, cs.drop us.length)

/-- The token regex at one position: the three alternatives in order. -/
def tokenAt (cs : List Char) : Option (List Char × List Char) :=
  (tokenAlt1 cs).orElse fun _ => (tokenAlt2 cs).orElse fun _ => tokenAlt3 cs

/-- `re.findall` of the token regex, fuel-driven over suffixes. -/
def findTokensAux : Nat → List Char → List (List Char)
  | 0, _ => []
  | fuel + 1, cs =>
    match cs with
    | [] => []
    | c :: rest =>
      match tokenAt (c :: rest) with
      | some (tok, rem) => tok :: findTokensAux fuel rem
      | none => findTokensAux fuel rest

/-- Fields of `re.split(r"[^a-zA-Z0-9]+", name)`: alphanumeric runs between
runs of separators (empty boundary fields kept, as `re.split` keeps them);
fuel-driven. -/
def splitNonAlnumAux : Nat → List Char → List (List Char)
  | 0, cs => [cs]
  | fuel + 1, cs =>
    let field := cs.takeWhile Char.isAlphanum
    let rest := cs.drop field.length
    match rest with
    | [] => [field]
    | _ :: _ =>
      let sep := rest.takeWhile (fun c => ¬c.isAlphanum)
      field :: splitNonAlnumAux fuel (rest.drop sep.length)

/-- Embeds `_split_param_tokens`: regex token split, falling back to a
non-alphanumeric split, lower-cased, empties dropped. -/
def split_param_tokens (name : String) : List String :=
  let cs := name.data
  let tokens :=
    if cs = [] then []
    else findTokensAux cs.length cs
  let tokens := if tokens = [] then splitNonAlnumAux cs.length cs else tokens
  (tokens.map (fun t => asciiLower ⟨t⟩)).filter (· ≠ "")

/-- Embeds `_is_date_param`: a date-like token in the name, or a date-shaped
string sample. -/
def is_date_param (name : String) (value : PyVal) : Bool :=
  if (split_param_tokens name).any (fun t => t = "date" || t = "dt" || t = "dob") then true
  else
    match value with
    | .pystr s => looks_like_date_string s
    | _ => false

/-- Embeds `_map_mlflow_type`: the fixed base table over the lowered type
name, the date heuristic on string-like names, sample sniffing only for an
empty type name, and the generic `"object"` for everything unrecognized. -/
def map_mlflow_type (type_name : String) (name : String) (sample : PyVal) : String :=
  if type_name = "" then
    if is_date_param name sample then "string" else infer_parameter_type sample
  else
    let lower := asciiLower type_name
    if lower = "boolean" ∨ lower = "bool" then "bool"
    else if lower = "integer" ∨ lower = "long" ∨ lower = "int" ∨ lower = "short" then "double"
    else if lower = "double" ∨ lower = "float" ∨ lower = "float32" ∨ lower = "float64" then "double"
    else if lower = "date" ∨ lower = "datetime" then "date"
    else if lower = "string" ∨ lower = "str" then
      if is_date_param name sample then "date" else "string"
    else "object"

/-- The kind selection of `generate_udf_method`: `"object"` is first mapped
to `"string"`, anything outside `{string, bool, date}` to `"number"`, then
the `ParamKind` enum lookup. -/
def paramKindOfType (t : String) : ParamKind :=
  let k1 := if t = "object" then "string" else t
  let k2 := if k1 = "string" ∨ k1 = "bool" ∨ k1 = "date" then k1 else "number"
  if k2 = "string" then .String
  else if k2 = "bool" then .Bool
  else if k2 = "date" then .Date
  else .Number

/-! ### Characterization of the serializer loops -/

/-- Comma-joined rendering of a list of fragments. -/
def joinComma : List String → String
  | [] => ""
  | x :: xs => x ++ joinPre xs
where
  /-- Fragments each preceded by a comma separator. -/
  joinPre : List String → String
    | [] => ""
    | x :: xs => ("," ++ x) ++ joinPre xs

/-- The serialized fragments contributed by an element list: empty cells are
elided, the rest serialized per kind. -/
def elemsOf (kind : ParamKind) (vals : List XV) : List String :=
  (vals.filter (fun v => !IsEmptyCell v)).map (elemSerialize kind)

theorem appendElems_true (kind : ParamKind) :
    ∀ (vals : List XV) (sb : String),
      appendElems kind vals sb true = sb ++ joinComma.joinPre (elemsOf kind vals) := by
  intro vals
  induction vals with
  | nil => intro sb; simp [appendElems, elemsOf, joinComma.joinPre]
  | cons v rest ih =>
    intro sb
    by_cases hv : IsEmptyCell v
    · simp [appendElems, hv, elemsOf, ih, List.filter_cons]
    · simp only [appendElems, hv, if_false, Bool.false_eq_true, ite_false, if_true]
      rw [ih]
      simp [elemsOf, List.filter_cons, hv, joinComma.joinPre, String.append_assoc]

theorem appendElems_false (kind : ParamKind) :
    ∀ (vals : List XV) (sb : String),
      appendElems kind vals sb false = sb ++ joinComma (elemsOf kind vals) := by
  intro vals
  induction vals with
  | nil => intro sb; simp [appendElems, elemsOf, joinComma]
  | cons v rest ih =>
    intro sb
    by_cases hv : IsEmptyCell v
    · simp [appendElems, hv, elemsOf, ih, List.filter_cons]
    · simp only [appendElems, hv, if_false, Bool.false_eq_true, ite_false]
      rw [appendElems_true]
      simp [elemsOf, List.filter_cons, hv, joinComma, String.append_assoc]

/-- The bracketed rendering of one grid row. -/
def rowStr (kind : ParamKind) (row : List XV) : String :=
  "[" ++ joinComma (elemsOf kind row) ++ "]"

theorem appendRows_false (kind : ParamKind) :
    ∀ (rows : List (List XV)) (sb : String),
      appendRows kind rows sb false = sb ++ joinComma.joinPre (rows.map (rowStr kind)) := by
  intro rows
  induction rows with
  | nil => intro sb; simp [appendRows, joinComma.joinPre]
  | cons row rest ih =>
    intro sb
    simp only [appendRows, if_false, Bool.false_eq_true, ite_false]
    rw [appendElems_false, ih]
    simp only [rowStr, joinComma.joinPre, List.map_cons, String.append_assoc]

theorem appendRows_true (kind : ParamKind) (rows : List (List XV)) (sb : String) :
    appendRows kind rows sb true = sb ++ joinComma (rows.map (rowStr kind)) := by
  cases rows with
  | nil => simp [appendRows, joinComma]
  | cons row rest =>
    simp only [appendRows, if_true]
    rw [appendElems_false, appendRows_false]
    simp [rowStr, joinComma, String.append_assoc]

theorem serializeArray_grid (kind : ParamKind) (g : List (List XV))
    (hr : 2 ≤ g.length) (hc : 2 ≤ (g.headD []).length) :
    SerializeArrayValue (.arr2 g) kind = "[" ++ joinComma (g.map (rowStr kind)) ++ "]" := by
  have h1 : ¬(g.length = 1 ∨ (g.headD []).length = 1) := by omega
  simp only [SerializeArrayValue, h1, if_false, ite_false]
  rw [appendRows_true]

/-- Parameter-level wrapper of `serializeArray_grid` for array parameters. -/
theorem serializeParam_grid (kind : ParamKind) (g : List (List XV))
    (hr : 2 ≤ g.length) (hc : 2 ≤ (g.headD []).length) :
    SerializeParamValue (.arr2 g) kind true =
      "[" ++ joinComma (g.map (rowStr kind)) ++ "]" := by
  cases g with
  | nil => simp at hr
  | cons row rest =>
    simp only [SerializeParamValue, if_true]
    exact serializeArray_grid kind (row :: rest) hr hc

/-! ### Claims C1–C3 -/

/-- C1, counterexample: serializing a 2×2 numeric grid for an array parameter
does not flatten it into a single one-dimensional JSON array — the output is
a nested array of row arrays (three opening brackets, not one). -/
theorem claim_C1_counterexample :
    SerializeParamValue (.arr2 [[.num 1, .num 2], [.num 3, .num 4]]) .Number true =
      "[[\"1\",\"2\"],[\"3\",\"4\"]]" ∧
    (SerializeParamValue (.arr2 [[.num 1, .num 2], [.num 3, .num 4]]) .Number true).data.count '[' = 3 ∧
    SerializeParamValue (.arr2 [[.num 1, .num 2], [.num 3, .num 4]]) .Number true ≠
      "[\"1\",\"2\",\"3\",\"4\"]" := by
  refine ⟨by decide, by decide, by decide⟩

/-- C1, amended: for an array parameter whose runtime value is a grid with at
least two rows and at least two columns, serialize emits a nested JSON array
of row arrays in row-major row order (each row's non-empty cells left to
right, per `elemsOf`), not a flattened one-dimensional array. -/
theorem claim_C1_amended (kind : ParamKind) (g : List (List XV))
    (hr : 2 ≤ g.length) (hc : 2 ≤ (g.headD []).length) :
    SerializeParamValue (.arr2 g) kind true =
      "[" ++ joinComma (g.map (fun row => "[" ++ joinComma (elemsOf kind row) ++ "]")) ++ "]" := by
  exact serializeParam_grid kind g hr hc

/-- C1, witness: the amended statement evaluated at the 2×2 numeric grid. -/
theorem claim_C1_witness :
    2 ≤ ([[.num 1, .num 2], [.num 3, .num 4]] : List (List XV)).length ∧
    SerializeParamValue (.arr2 [[.num 1, .num 2], [.num 3, .num 4]]) .Number true =
      "[" ++ joinComma (([[.num 1, .num 2], [.num 3, .num 4]] : List (List XV)).map
        (fun row => "[" ++ joinComma (elemsOf .Number row) ++ "]")) ++ "]" :=
  ⟨by decide, claim_C1_amended .Number [[.num 1, .num 2], [.num 3, .num 4]] (by decide) (by decide)⟩

/-- C2, counterexample: an array-kind Number parameter over the cells
`5, Empty, 7` serializes to `["5","7"]` — the retained elements are JSON
strings, not the bare numbers `5` and `7` of the claimed `[5,7]`. -/
theorem claim_C2_counterexample :
    SerializeParamValue (.arr1 [.num 5, .empty, .num 7]) .Number true = "[\"5\",\"7\"]" ∧
    SerializeParamValue (.arr1 [.num 5, .empty, .num 7]) .Number true ≠ "[5,7]" := by
  refine ⟨by decide, by decide⟩

/-- C2, amended: the `Empty` cell is elided (the array shortens, no `null`
entry: dropping the empty cells beforehand gives the same output), and the
retained Number-kind elements are emitted as JSON strings of their invariant
stringification, so `5, Empty, 7` gives `["5","7"]`. -/
theorem claim_C2_amended :
    SerializeParamValue (.arr1 [.num 5, .empty, .num 7]) .Number true = "[\"5\",\"7\"]" ∧
    SerializeParamValue (.arr2 [[.num 5, .empty, .num 7]]) .Number true = "[\"5\",\"7\"]" ∧
    (∀ (xs : List XV) (kind : ParamKind),
      SerializeArrayValue (.arr1 xs) kind =
        SerializeArrayValue (.arr1 (xs.filter (fun v => !IsEmptyCell v))) kind) ∧
    (∀ q : ℚ, elemSerialize .Number (.num q) =
      "\"" ++ EscapeJsonString (numToString q) ++ "\"") := by
  refine ⟨by decide, by decide, ?_, ?_⟩
  · intro xs kind
    simp only [SerializeArrayValue]
    rw [appendElems_false, appendElems_false]
    simp [elemsOf, List.filter_filter]
  · intro q
    rfl

/-- C3, counterexample: a single `ErrorSentinel` cell for a Bool-kind
parameter serializes to `false`, not to the claimed literal `null`. -/
theorem claim_C3_counterexample :
    SerializeParamValue (.scalar (.error "ExcelErrorNA")) .Bool false = "false" ∧
    SerializeParamValue (.scalar (.error "ExcelErrorNA")) .Bool false ≠ "null" := by
  refine ⟨by decide, by decide⟩

/-- C3, amended: for every parameter kind a single `Empty` (or missing) cell
serializes to the literal `null`; an `ErrorSentinel` cell is treated as empty
only inside arrays (where it is elided) — as a single cell it serializes as
an ordinary value: `false` for Bool, its quoted enum name for String, Date
and Number. -/
theorem claim_C3_amended :
    (∀ (kind : ParamKind) (aa : Bool),
      SerializeParamValue (.scalar .empty) kind aa = "null" ∧
      SerializeParamValue (.scalar .missing) kind aa = "null" ∧
      SerializeScalarValue .empty kind = "null") ∧
    (∀ n : String,
      SerializeParamValue (.scalar (.error n)) .Bool false = "false" ∧
      SerializeParamValue (.scalar (.error n)) .String false = "\"" ++ EscapeJsonString n ++ "\"" ∧
      SerializeParamValue (.scalar (.error n)) .Date false = "\"" ++ EscapeJsonString n ++ "\"" ∧
      SerializeParamValue (.scalar (.error n)) .Number false = "\"" ++ EscapeJsonString n ++ "\"") ∧
    (∀ (n : String) (xs : List XV) (kind : ParamKind),
      SerializeArrayValue (.arr1 (.error n :: xs)) kind = SerializeArrayValue (.arr1 xs) kind) := by
  refine ⟨?_, ?_, ?_⟩
  · intro kind aa
    cases kind <;> cases aa <;> exact ⟨rfl, rfl, rfl⟩
  · intro n
    exact ⟨rfl, rfl, rfl, rfl⟩
  · intro n xs kind
    rfl

/-! ### Claim C9 -/

/-- C9, counterexample: a declared type name outside the base table
(`"mystery"`) with a boolean sample value classifies to the generic
`"object"`, which the UDF generator maps to the `String` kind — the sample's
runtime type is not sniffed, contradicting the claimed `bool → Bool`. -/
theorem claim_C9_counterexample :
    map_mlflow_type "mystery" "x" (.pybool true) = "object" ∧
    paramKindOfType (map_mlflow_type "mystery" "x" (.pybool true)) = .String ∧
    ParamKind.String ≠ ParamKind.Bool := by
  refine ⟨by decide, by decide, by decide⟩

/-- C9, amended: every non-empty declared type name outside the fixed base
mapping table maps to the generic `"object"` type, which the generator turns
into the `String` kind regardless of the sample value; runtime-type sniffing
of the sample (bool→Bool-table-entry, numeric→Number-table-entry,
string→String-table-entry) happens only when the declared type name is
empty. -/
theorem claim_C9_amended :
    (∀ (t n : String) (s : PyVal), t ≠ "" →
      asciiLower t ∉ (["boolean", "bool", "integer", "long", "int", "short", "double",
        "float", "float32", "float64", "date", "datetime", "string", "str"] : List String) →
      map_mlflow_type t n s = "object" ∧ paramKindOfType (map_mlflow_type t n s) = .String) ∧
    (∀ (n : String) (s : PyVal),
      map_mlflow_type "" n s = if is_date_param n s then "string" else infer_parameter_type s) ∧
    (∀ b, infer_parameter_type (.pybool b) = "bool") ∧
    (∀ i, infer_parameter_type (.pyint i) = "double") ∧
    (∀ q, infer_parameter_type (.pyfloat q) = "double") ∧
    (∀ s, infer_parameter_type (.pystr s) = "string") ∧
    paramKindOfType "bool" = .Bool ∧
    paramKindOfType "double" = .Number ∧
    paramKindOfType "string" = .String := by
  refine ⟨?_, ?_, fun _ => rfl, fun _ => rfl, fun _ => rfl, fun _ => rfl, rfl, rfl, rfl⟩
  · intro t n s ht hmem
    simp only [List.mem_cons, List.not_mem_nil, or_false, not_or] at hmem
    obtain ⟨h1, h2, h3, h4, h5, h6, h7, h8, h9, h10, h11, h12, h13, h14⟩ := hmem
    have hobj : map_mlflow_type t n s = "object" := by
      simp [map_mlflow_type, ht, h1, h2, h3, h4, h5, h6, h7, h8, h9, h10, h11, h12, h13, h14]
    exact ⟨hobj, by rw [hobj]; rfl⟩
  · intro n s
    rfl

/-- C9, witness: the amended statement evaluated at the unrecognized declared
type `"mystery"` with a boolean sample. -/
theorem claim_C9_witness :
    ("mystery" ≠ "" ∧
      asciiLower "mystery" ∉ (["boolean", "bool", "integer", "long", "int", "short", "double",
        "float", "float32", "float64", "date", "datetime", "string", "str"] : List String)) ∧
    map_mlflow_type "mystery" "x" (.pybool true) = "object" ∧
    paramKindOfType (map_mlflow_type "mystery" "x" (.pybool true)) = .String :=
  ⟨⟨by decide, by decide⟩,
    claim_C9_amended.1 "mystery" "x" (.pybool true) (by decide) (by decide)⟩

/-! ### Extractor lemmas -/

theorem scanBracket_spec (opc clc : Char) :
    ∀ (cs : List Char) (d : ℤ) (i e : Bool) (n : Nat),
      scanBracket opc clc cs d i e = some n →
      1 ≤ n ∧ n ≤ cs.length ∧ cs.get? (n - 1) = some clc := by
  intro cs
  induction cs with
  | nil => intro d i e n h; simp [scanBracket] at h
  | cons ch rest ih =>
    intro d i e n h
    unfold scanBracket at h
    have step : ∀ (d2 : ℤ) (i2 e2 : Bool),
        (scanBracket opc clc rest d2 i2 e2).map (· + 1) = some n →
        1 ≤ n ∧ n ≤ (ch :: rest).length ∧ (ch :: rest).get? (n - 1) = some clc := by
      intro d2 i2 e2 hm
      obtain ⟨m, hm1, rfl⟩ := Option.map_eq_some'.mp hm
      obtain ⟨g1, g2, g3⟩ := ih d2 i2 e2 m hm1
      refine ⟨by omega, by simp; omega, ?_⟩
      cases m with
      | zero => omega
      | succ k => simpa using g3
    repeat' split at h
    all_goals
      first
        | exact step _ _ _ h
        | (obtain rfl : 1 = n := by simpa using h
           simp_all)

theorem csTrimLeft_suffix (cs : List Char) : csTrimLeft cs <:+ cs :=
  List.dropWhile_suffix isWS

theorem csTrimRight_prefixOf (cs : List Char) : csTrimRight cs <+: cs := by
  have h := List.dropWhile_suffix (l := cs.reverse) isWS
  rw [csTrimRight]
  rw [← List.reverse_suffix]
  simpa using h

theorem csTrim_isInfix (cs : List Char) : csTrim cs <:+: cs :=
  ((csTrimRight_prefixOf (csTrimLeft cs)).isInfix).trans ((csTrimLeft_suffix cs).isInfix)

theorem extractValueFrom_cons (c : Char) (tail : List Char) :
    extractValueFrom (c :: tail) =
      if c = '[' ∨ c = '\x7b' then
        match scanBracket c (if c = '[' then ']' else '\x7d') (c :: tail) 0 false false with
        | some n => ⟨true, ⟨csTrim ((c :: tail).take n)⟩, ""⟩
        | none => ⟨false, "", "Error: Unterminated result value in response"⟩
      else if c = '"' then
        match scanQuoted ((c :: tail).drop 1) false with
        | some n => ⟨true, ⟨csTrim ((c :: tail).take (n + 1))⟩, ""⟩
        | none => ⟨false, "", "Error: Unterminated string result in response"⟩
      else
        ⟨true, ⟨csTrim ((c :: tail).takeWhile (fun ch => ¬(ch = ',' ∨ ch = '\x7d' ∨ ch = ']')))⟩, ""⟩ :=
  rfl

/-- Every outcome of the value scanner: either a failure with one of the
deterministic empty/unterminated messages and no fragment, or a success with
no error and a fragment that is a trimmed part of the scanned text. -/
theorem extractValueFrom_branches (rest : List Char) :
    (∃ msg, extractValueFrom rest = ⟨false, "", msg⟩ ∧
      msg ∈ (["Error: Empty result field in response",
              "Error: Unterminated result value in response",
              "Error: Unterminated string result in response"] : List String)) ∨
    (∃ v, extractValueFrom rest = ⟨true, ⟨csTrim v⟩, ""⟩ ∧ v <:+: rest) := by
  cases rest with
  | nil => left; exact ⟨_, rfl, by simp⟩
  | cons c tail =>
    rw [extractValueFrom_cons]
    by_cases hb : c = '[' ∨ c = '\x7b'
    · rw [if_pos hb]
      cases hs : scanBracket c (if c = '[' then ']' else '\x7d') (c :: tail) 0 false false with
      | none => simp only [hs]; left; exact ⟨_, rfl, by simp⟩
      | some n =>
        simp only [hs]
        right
        exact ⟨(c :: tail).take n, rfl, (List.IsPrefix.isInfix ( List.take_prefix n (c :: tail)))⟩
    · rw [if_neg hb]
      by_cases hq : c = '"'
      · rw [if_pos hq]
        cases hs : scanQuoted ((c :: tail).drop 1) false with
        | none => simp only [hs]; left; exact ⟨_, rfl, by simp⟩
        | some n =>
          simp only [hs]
          right
          exact ⟨(c :: tail).take (n + 1), rfl, (List.IsPrefix.isInfix ( List.take_prefix (n + 1) (c :: tail)))⟩
      · rw [if_neg hq]
        right
        exact ⟨(c :: tail).takeWhile _, rfl, (List.IsPrefix.isInfix ( List.takeWhile_prefix _))⟩

/-- Every outcome of `TryExtractResultValue`: failure with one of the four
deterministic error messages and an empty fragment, or success with an empty
error and a fragment that is a contiguous part of the input. -/
theorem tryExtract_branches (json : String) :
    ((TryExtractResultValue json).found = false ∧
      (TryExtractResultValue json).resultValue = "" ∧
      (TryExtractResultValue json).error ∈
        (["Error: No result field in response",
          "Error: Empty result field in response",
          "Error: Unterminated result value in response",
          "Error: Unterminated string result in response"] : List String)) ∨
    ((TryExtractResultValue json).found = true ∧
      (TryExtractResultValue json).error = "" ∧
      (TryExtractResultValue json).resultValue.data <:+: json.data) := by
  unfold TryExtractResultValue
  cases hk : findKey json.data with
  | none => left; exact ⟨rfl, rfl, by simp⟩
  | some p =>
    obtain ⟨idx, len⟩ := p
    dsimp only
    set rest := (json.data.drop (idx + len)).drop
      ((json.data.drop (idx + len)).takeWhile isWS).length with hrest
    have hsub : rest <:+: json.data := by
      have h1 : rest <:+ json.data.drop (idx + len) := by rw [hrest]; exact List.drop_suffix _ _
      have h2 : json.data.drop (idx + len) <:+ json.data := List.drop_suffix _ _
      exact (h1.trans h2).isInfix
    rcases extractValueFrom_branches rest with ⟨msg, heq, hmem⟩ | ⟨v, hveq, hvsub⟩
    · left
      rw [heq]
      refine ⟨rfl, rfl, ?_⟩
      simp only [List.mem_cons, List.not_mem_nil, or_false] at hmem ⊢
      tauto
    · right
      rw [hveq]
      refine ⟨rfl, rfl, ?_⟩
      have h3 : csTrim v <:+: v := csTrim_isInfix v
      exact (h3.trans hvsub).trans hsub

/-! ### Claims C4 and C5 -/

/-- C4: on `{"other": [1,"a}",2], "result": {"x": [1,2,[3,4]]}}` extract
succeeds with exactly the substring `{"x": [1,2,[3,4]]}`; brackets inside
double-quoted strings (with backslash escapes) are ignored, as the second
concrete instance shows; and in general a successful bracket scan consumes at
least one character, ends exactly at the closing delimiter of the tracked
pair (both delimiters included), and a successful extraction returns a
contiguous substring of the input. -/
theorem claim_C4 :
    TryExtractResultValue
        "\x7b\"other\": [1,\"a\x7d\",2], \"result\": \x7b\"x\": [1,2,[3,4]]\x7d\x7d" =
      ⟨true, "\x7b\"x\": [1,2,[3,4]]\x7d", ""⟩ ∧
    TryExtractResultValue "\x7b\"result\": \x7b\"a\":\"\\\"\x7d\"\x7d\x7d" =
      ⟨true, "\x7b\"a\":\"\\\"\x7d\"\x7d", ""⟩ ∧
    (∀ (opc clc : Char) (cs : List Char) (d : ℤ) (i e : Bool) (n : Nat),
      scanBracket opc clc cs d i e = some n →
      1 ≤ n ∧ n ≤ cs.length ∧ cs.get? (n - 1) = some clc) ∧
    (∀ json : String, (TryExtractResultValue json).found = true →
      (TryExtractResultValue json).resultValue.data <:+: json.data) := by
  refine ⟨by decide, by decide, fun opc clc => scanBracket_spec opc clc, ?_⟩
  intro json h
  rcases tryExtract_branches json with ⟨h1, _, _⟩ | ⟨_, _, h3⟩
  · rw [h] at h1; exact absurd h1 (by simp)
  · exact h3

/-- C4, witness: the general clauses of the claim evaluated at a concrete
bracketed extraction. -/
theorem claim_C4_witness :
    (TryExtractResultValue "\x7b\"result\": [1,[2,3]]\x7d").found = true ∧
    (TryExtractResultValue "\x7b\"result\": [1,[2,3]]\x7d").resultValue.data <:+:
      ("\x7b\"result\": [1,[2,3]]\x7d" : String).data ∧
    scanBracket '[' ']' ("[1,[2,3]]" : String).data 0 false false = some 9 ∧
    ("[1,[2,3]]" : String).data.get? 8 = some ']' :=
  ⟨by decide,
    claim_C4.2.2.2 "\x7b\"result\": [1,[2,3]]\x7d" (by decide),
    by decide,
    (claim_C4.2.2.1 '[' ']' ("[1,[2,3]]" : String).data 0 false false 9 (by decide)).2.2⟩

/-- C5, counterexample: on the input `{"result":` (key present, value
entirely missing) extraction fails with the distinct message
`Error: Empty result field in response` — a third failure mode beyond the
claimed missing-key and unterminated-value cases. -/
theorem claim_C5_counterexample :
    (TryExtractResultValue "\x7b\"result\":").found = false ∧
    findKey ("\x7b\"result\":" : String).data ≠ none ∧
    (TryExtractResultValue "\x7b\"result\":").error = "Error: Empty result field in response" ∧
    (TryExtractResultValue "\x7b\"result\":").error ≠ "Error: No result field in response" ∧
    (TryExtractResultValue "\x7b\"result\":").error ≠ "Error: Unterminated result value in response" ∧
    (TryExtractResultValue "\x7b\"result\":").error ≠ "Error: Unterminated string result in response" := by
  refine ⟨by decide, by decide, by decide, by decide, by decide, by decide⟩

/-- C5, amended: extraction fails exactly in three situations — the key is
absent, the input ends before any value character, or a bracketed/quoted
value never closes — always returning one of four deterministic error
strings as an ordinary value (never an exception: the embedding is total),
with the missing-key message distinct from both unterminated messages. -/
theorem claim_C5_amended :
    (∀ json : String,
      ((TryExtractResultValue json).found = true ∧ (TryExtractResultValue json).error = "") ∨
      ((TryExtractResultValue json).found = false ∧
        (TryExtractResultValue json).resultValue = "" ∧
        (TryExtractResultValue json).error ∈
          (["Error: No result field in response",
            "Error: Empty result field in response",
            "Error: Unterminated result value in response",
            "Error: Unterminated string result in response"] : List String))) ∧
    (∀ json : String, findKey json.data = none →
      TryExtractResultValue json = ⟨false, "", "Error: No result field in response"⟩) ∧
    ("Error: No result field in response" ≠ "Error: Unterminated result value in response" ∧
     "Error: No result field in response" ≠ "Error: Unterminated string result in response" ∧
     "Error: No result field in response" ≠ "Error: Empty result field in response" ∧
     "Error: Empty result field in response" ≠ "Error: Unterminated result value in response" ∧
     "Error: Empty result field in response" ≠ "Error: Unterminated string result in response" ∧
     "Error: Unterminated result value in response" ≠ "Error: Unterminated string result in response") ∧
    TryExtractResultValue "\x7b\"x\":1\x7d" = ⟨false, "", "Error: No result field in response"⟩ ∧
    TryExtractResultValue "\x7b\"result\": [1,2" =
      ⟨false, "", "Error: Unterminated result value in response"⟩ ∧
    TryExtractResultValue "\x7b\"result\": \"ab" =
      ⟨false, "", "Error: Unterminated string result in response"⟩ := by
  refine ⟨?_, ?_, by decide, by decide, by decide, by decide⟩
  · intro json
    rcases tryExtract_branches json with ⟨h1, h2, h3⟩ | ⟨h1, h2, _⟩
    · right; exact ⟨h1, h2, h3⟩
    · left; exact ⟨h1, h2⟩
  · intro json h
    unfold TryExtractResultValue
    rw [h]

/-- C5, witness: the missing-key clause of the amended claim evaluated at an
input without a result key. -/
theorem claim_C5_witness :
    findKey ("\x7b\"a\": 1\x7d" : String).data = none ∧
    TryExtractResultValue "\x7b\"a\": 1\x7d" =
      ⟨false, "", "Error: No result field in response"⟩ :=
  ⟨by decide, claim_C5_amended.2.1 "\x7b\"a\": 1\x7d" (by decide)⟩

/-! ### Shaper lemmas and claims C6, C7, C10 -/

theorem foldl_max_init (rows : List (List CellScalar)) :
    ∀ init : Nat, init ≤ rows.foldl (fun a r => max a r.length) init := by
  induction rows with
  | nil => intro init; simp
  | cons r rest ih =>
    intro init
    calc init ≤ max init r.length := Nat.le_max_left _ _
    _ ≤ rest.foldl (fun a r => max a r.length) (max init r.length) := ih _

theorem foldl_max_le (rows : List (List CellScalar)) (r : List CellScalar) (h : r ∈ rows) :
    ∀ init : Nat, r.length ≤ rows.foldl (fun a x => max a x.length) init := by
  induction rows with
  | nil => simp at h
  | cons hd tl ih =>
    intro init
    rcases List.mem_cons.mp h with rfl | hmem
    · calc r.length ≤ max init r.length := Nat.le_max_right _ _
      _ ≤ tl.foldl (fun a x => max a x.length) (max init r.length) := foldl_max_init tl _
    · rw [List.foldl_cons]; exact ih hmem _

theorem maxWidth_mem (rows : List (List CellScalar)) (r : List CellScalar) (h : r ∈ rows) :
    r.length ≤ maxWidth rows :=
  foldl_max_le rows r h 0

theorem maxWidth_zero (rows : List (List CellScalar)) (h : ∀ r ∈ rows, r = ([] : List CellScalar)) :
    maxWidth rows = 0 := by
  induction rows with
  | nil => rfl
  | cons hd tl ih =>
    have h0 : hd = [] := h hd (by simp)
    have htl : maxWidth tl = 0 := ih (fun r hr => h r (List.mem_cons_of_mem _ hr))
    unfold maxWidth at htl ⊢
    simpa [h0] using htl

/-- C6: `shape` on `[[1,2],[3]]` gives the 2×2 grid `[[1,2],[3,""]]`; in
general a multi-row fragment with at least one non-empty parsed row never
fails: the result is the grid of parsed rows each right-padded with `""` to
the maximum row width, every row of the output has that width, and the
padding construction preserves the original cells. -/
theorem claim_C6 :
    ParseResultFragment "[[1,2],[3]]" = .grid [[.num 1, .num 2], [.num 3, .str ""]] ∧
    (∀ s : String, 2 ≤ ((rowMatches s.data).map parseRowContent).length →
      1 ≤ maxWidth ((rowMatches s.data).map parseRowContent) →
      Parse2DArray s = .grid (((rowMatches s.data).map parseRowContent).map
        (fun r => padRow r (maxWidth ((rowMatches s.data).map parseRowContent))))) ∧
    (∀ (r : List CellScalar) (n : Nat), r.length ≤ n →
      (padRow r n).length = n ∧
      (padRow r n).take r.length = r ∧
      (padRow r n).drop r.length = List.replicate (n - r.length) (.str "")) ∧
    (∀ (rows : List (List CellScalar)) (r : List CellScalar), r ∈ rows →
      r.length ≤ maxWidth rows) := by
  refine ⟨by decide, ?_, ?_, maxWidth_mem⟩
  · intro s h2 h1
    unfold Parse2DArray
    have hms : ¬rowMatches s.data = [] := by
      intro h
      rw [h] at h2
      simp at h2
    rw [if_neg hms]
    have hlen : ¬(((rowMatches s.data).map parseRowContent).length = 0 ∨
        maxWidth ((rowMatches s.data).map parseRowContent) = 0) := by omega
    rw [if_neg hlen]
    have hone : ¬(((rowMatches s.data).map parseRowContent).length = 1 ∧
        (((rowMatches s.data).map parseRowContent).headD []).length = 1) := by
      intro hc
      omega
    rw [if_neg hone]
  · intro r n h
    refine ⟨by simp [padRow]; omega, ?_, ?_⟩
    · rw [padRow, List.take_left]
    · rw [padRow, List.drop_left]

/-- C6, witness: the general grid clause evaluated at the jagged fragment
`[[1,2],[3]]`. -/
theorem claim_C6_witness :
    2 ≤ ((rowMatches ("[[1,2],[3]]" : String).data).map parseRowContent).length ∧
    Parse2DArray "[[1,2],[3]]" = .grid (((rowMatches ("[[1,2],[3]]" : String).data).map
      parseRowContent).map (fun r => padRow r
        (maxWidth ((rowMatches ("[[1,2],[3]]" : String).data).map parseRowContent)))) :=
  ⟨by decide, claim_C6.2.1 "[[1,2],[3]]" (by decide) (by decide)⟩

/-- C7: `shape` on `[42]` gives the bare scalar `42` (not a 1×1 grid); in
general a single-level fragment with a non-empty interior collapses to a
scalar when the comma split yields exactly one field, and yields a 1×N row
of the parsed fields when it yields two or more. -/
theorem claim_C7 :
    ParseResultFragment "[42]" = .scalar (.num 42) ∧
    (∀ s : String, csTrim ((s.data.drop 1).dropLast) ≠ [] →
      ((splitCommasNE (csTrim ((s.data.drop 1).dropLast))).length = 1 →
        Parse1DArray s = .scalar (ParseSingleValue
          ⟨csTrim ((splitCommasNE (csTrim ((s.data.drop 1).dropLast))).headD [])⟩)) ∧
      (2 ≤ (splitCommasNE (csTrim ((s.data.drop 1).dropLast))).length →
        Parse1DArray s = .row ((splitCommasNE (csTrim ((s.data.drop 1).dropLast))).map
          (fun p => ParseSingleValue ⟨csTrim p⟩)))) := by
  refine ⟨by decide, ?_⟩
  intro s hne
  constructor
  · intro h1
    obtain ⟨p, hp⟩ := List.length_eq_one.mp h1
    unfold Parse1DArray
    rw [if_neg hne, hp]
    simp
  · intro h2
    unfold Parse1DArray
    rw [if_neg hne]
    have hlen : ¬((splitCommasNE (csTrim ((s.data.drop 1).dropLast))).map
        (fun p => ParseSingleValue ⟨csTrim p⟩)).length = 1 := by
      rw [List.length_map]
      omega
    rw [if_neg hlen]

/-- C7, witness: both clauses evaluated at `[42]` and `[1,2]`. -/
theorem claim_C7_witness :
    csTrim ((("[42]" : String).data.drop 1).dropLast) ≠ [] ∧
    Parse1DArray "[42]" = .scalar (ParseSingleValue
      ⟨csTrim ((splitCommasNE (csTrim ((("[42]" : String).data.drop 1).dropLast))).headD [])⟩) ∧
    Parse1DArray "[1,2]" = .row ((splitCommasNE
      (csTrim ((("[1,2]" : String).data.drop 1).dropLast))).map
        (fun p => ParseSingleValue ⟨csTrim p⟩)) :=
  ⟨by decide,
    (claim_C7.2 "[42]" (by decide)).1 (by decide),
    (claim_C7.2 "[1,2]" (by decide)).2 (by decide)⟩

/-- C10: `shape` on an array fragment with an empty or whitespace-only
interior — `[]`, `[  ]`, or a `[[...]]` fragment all of whose rows are
empty — returns the empty string as a scalar, not an empty row/grid and not
an error. -/
theorem claim_C10 :
    ParseResultFragment "[]" = .scalar (.str "") ∧
    ParseResultFragment "[  ]" = .scalar (.str "") ∧
    ParseResultFragment "[[],[]]" = .scalar (.str "") ∧
    ParseResultFragment "[[ ],[  ]]" = .scalar (.str "") ∧
    (∀ s : String, rowMatches s.data ≠ [] →
      (∀ m ∈ rowMatches s.data, isNullOrWhiteSpace m = true) →
      Parse2DArray s = .scalar (.str "")) ∧
    (∀ s : String, csTrim ((s.data.drop 1).dropLast) = [] →
      Parse1DArray s = .scalar (.str "")) := by
  refine ⟨by decide, by decide, by decide, by decide, ?_, ?_⟩
  · intro s hne hws
    unfold Parse2DArray
    rw [if_neg hne]
    have hzero : maxWidth ((rowMatches s.data).map parseRowContent) = 0 := by
      apply maxWidth_zero
      intro r hr
      obtain ⟨m, hm, rfl⟩ := List.mem_map.mp hr
      simp [parseRowContent, hws m hm]
    rw [if_pos (Or.inr hzero)]
  · intro s h
    unfold Parse1DArray
    rw [if_pos h]

/-- C10, witness: the general clauses evaluated at `[[],[]]` and `[]`. -/
theorem claim_C10_witness :
    rowMatches ("[[],[]]" : String).data ≠ [] ∧
    Parse2DArray "[[],[]]" = .scalar (.str "") ∧
    csTrim ((("[]" : String).data.drop 1).dropLast) = [] ∧
    Parse1DArray "[]" = .scalar (.str "") :=
  ⟨by decide,
    claim_C10.2.2.2.2.1 "[[],[]]" (by decide) (by decide),
    by decide,
    claim_C10.2.2.2.2.2 "[]" (by decide)⟩

/-! ### Claim C8 -/

/-- C8: the spreadsheet serial `45000` and the string `"2023-03-15"` denote
the same calendar day and serialize to the same quoted `yyyy-MM-dd` string
for a Date parameter; and the formatting algorithm tries, in order: numerics
at or above `10^12` as Unix epoch milliseconds, at or above `10^9` as Unix
epoch seconds, other numerics as OADate spreadsheet serials, numeric strings
as those same numerics, date-parseable strings by their components, and
otherwise echoes the (trimmed) string unchanged. -/
theorem claim_C8 :
    SerializeScalarValue (.num 45000) .Date = "\"2023-03-15\"" ∧
    SerializeScalarValue (.str "2023-03-15") .Date = "\"2023-03-15\"" ∧
    SerializeScalarValue (.num 45000) .Date = SerializeScalarValue (.str "2023-03-15") .Date ∧
    (∀ q : ℚ, 1000000000000 ≤ q →
      FormatDateFromNumber q = formatCivil (civilFromDays ((roundHalfEven q).fdiv 86400000))) ∧
    (∀ q : ℚ, 1000000000 ≤ q → ¬1000000000000 ≤ q →
      FormatDateFromNumber q = formatCivil (civilFromDays ((roundHalfEven q).fdiv 86400))) ∧
    (∀ (q : ℚ) (c : ℤ × Nat × Nat), ¬1000000000 ≤ q → fromOADateCivil q = some c →
      FormatDateFromNumber q = formatCivil c) ∧
    (∀ (s : String) (q : ℚ), csTrim s.data ≠ [] →
      parseInvariantDouble (csTrim s.data) = some q →
      FormatDateParam (.str s) = FormatDateFromNumber q) ∧
    (∀ (s : String) (c : ℤ × Nat × Nat), csTrim s.data ≠ [] →
      parseInvariantDouble (csTrim s.data) = none →
      tryParseDate (csTrim s.data) = some c →
      FormatDateParam (.str s) = formatCivil c) ∧
    (∀ s : String, csTrim s.data ≠ [] →
      parseInvariantDouble (csTrim s.data) = none →
      tryParseDate (csTrim s.data) = none →
      FormatDateParam (.str s) = ⟨csTrim s.data⟩ ∧
      (csTrim s.data = s.data → FormatDateParam (.str s) = s)) := by
  refine ⟨by decide, by decide, by decide, ?_, ?_, ?_, ?_, ?_, ?_⟩
  · intro q h
    unfold FormatDateFromNumber
    rw [if_pos h]
  · intro q h1 h2
    unfold FormatDateFromNumber
    rw [if_neg h2, if_pos h1]
  · intro q c h1 h2
    have h0 : ¬1000000000000 ≤ q := by
      intro hle
      exact h1 (le_trans (by norm_num) hle)
    unfold FormatDateFromNumber
    rw [if_neg h0, if_neg h1, h2]
  · intro s q hne hp
    unfold FormatDateParam
    dsimp only
    rw [if_neg hne, hp]
  · intro s c hne hp hd
    unfold FormatDateParam
    dsimp only
    rw [if_neg hne, hp, hd]
  · intro s hne hp hd
    constructor
    · unfold FormatDateParam
      dsimp only
      rw [if_neg hne, hp, hd]
    · intro heq
      unfold FormatDateParam
      dsimp only
      rw [if_neg hne, hp, hd, heq]

/-- C8, witness: the branch clauses of the formatting algorithm evaluated at
concrete inputs — an epoch-milliseconds value, an epoch-seconds value, the
serial `45000`, the numeric string `"45000"`, the date string
`"2023-03-15"`, and a plain string echo. -/
theorem claim_C8_witness :
    FormatDateFromNumber 1500000000000 =
      formatCivil (civilFromDays ((roundHalfEven 1500000000000).fdiv 86400000)) ∧
    FormatDateFromNumber 1500000000 =
      formatCivil (civilFromDays ((roundHalfEven 1500000000).fdiv 86400)) ∧
    fromOADateCivil 45000 = some (2023, 3, 15) ∧
    FormatDateFromNumber 45000 = formatCivil (2023, 3, 15) ∧
    FormatDateParam (.str "45000") = FormatDateFromNumber 45000 ∧
    tryParseDate (csTrim ("2023-03-15" : String).data) = some (2023, 3, 15) ∧
    FormatDateParam (.str "2023-03-15") = formatCivil (2023, 3, 15) ∧
    FormatDateParam (.str "hello") = "hello" :=
  ⟨claim_C8.2.2.2.1 1500000000000 (by decide),
    claim_C8.2.2.2.2.1 1500000000 (by decide) (by decide),
    by decide,
    claim_C8.2.2.2.2.2.1 45000 (2023, 3, 15) (by decide) (by decide),
    claim_C8.2.2.2.2.2.2.1 "45000" 45000 (by decide) (by decide),
    by decide,
    claim_C8.2.2.2.2.2.2.2.1 "2023-03-15" (2023, 3, 15) (by decide) (by decide) (by decide),
    (claim_C8.2.2.2.2.2.2.2.2 "hello" (by decide) (by decide) (by decide)).2 (by decide)⟩

end EndpointUDFs
